import Mathlib

/-!
# pgxsql: resiliency controllers and lifecycle flag

A shallow embedding of `pgxsql/controller.go` and `pgxsql/z_package.go`.

Go functions with effects (the database client, the access-log function) are
embedded by explicit state passing: every function takes the process
environment `Env` and returns, next to its Go results, the ordered list of
calls it made to its collaborators (`Event`).
-/

namespace Pgxsql

/-! ## Values of the collaborating packages -/

/-- Go `error` value, identified by its message. -/
structure GoError where
  msg : String
  deriving DecidableEq, Repr

/-- The standard library's `errors.New`. -/
def errorsNew (msg : String) : GoError := ⟨msg⟩

/-- Modelled from the spec: the coarse status codes of the `runtime` package
(section 7, taxonomy); the package itself is an outside dependency. -/
inductive StatusCode where
  | OK
  | InvalidArgument
  | Internal
  | NotFound
  | ResourceExhausted
  | DeadlineExceeded
  | Cancelled
  deriving DecidableEq, Repr

/-- Modelled from the spec: `runtime.Status` (section 3): a coarse code, a
location tag, an optional cause and an optional request-correlation id. -/
structure Status where
  code : StatusCode
  location : String
  cause : Option GoError
  requestId : Option String
  deriving DecidableEq, Repr

/-- Modelled from the spec: `runtime.NewStatusOK`, the status with code OK,
no cause and no request id. -/
def NewStatusOK : Status := ⟨StatusCode.OK, "", none, none⟩

/-- Modelled from the spec: `runtime.NewStatusError(code, location, err)` for
a non-nil `err`: a status with that code and location carrying `err` as its
cause. -/
def NewStatusError (code : StatusCode) (location : String) (err : GoError) : Status :=
  ⟨code, location, some err, none⟩

/-- Accessor `Status.Code()`. -/
def Status.Code (s : Status) : StatusCode := s.code

/-- Bind value of a SQL statement (an element of Go's `[]any`). -/
inductive SqlValue where
  | null
  | int (i : Int)
  | text (s : String)
  | bool (b : Bool)
  deriving DecidableEq, Repr

/-- One value of a variadic parameter `args ...any`: a bind value, or a whole
slice `[]any` handed over as a single value (what Go passes when a slice is
given to a variadic parameter without `...`). -/
inductive AnyValue where
  | value (v : SqlValue)
  | slice (vs : List SqlValue)
  deriving DecidableEq, Repr

/-- Modelled from the spec: the `Request` type of this package (section 3),
declared in a file that is not among the sources. The fields are the values
of its accessors `Method()`, `Uri()`, `Sql()` and `Args()`, plus the
resource name. -/
structure Request where
  Method : String
  Resource : String
  Sql : String
  Args : List SqlValue
  Uri : String
  deriving DecidableEq, Repr

/-- Row cursor behind a non-nil `pgx.Rows` interface value. -/
structure RowSet where
  rows : List (List SqlValue)
  deriving DecidableEq, Repr

/-- The Go interface type `pgx.Rows`; `none` is the nil cursor. -/
abbrev PgxRows := Option RowSet

/-- The command tag `pgconn.CommandTag`, with the fields the tests print. -/
structure CommandTag where
  Sql : String
  RowsAffected : Int
  Insert : Bool
  Update : Bool
  Delete : Bool
  Select : Bool
  deriving DecidableEq, Repr

/-- Go's zero value `pgconn.CommandTag{}`. -/
def CommandTag.zero : CommandTag := ⟨"", 0, false, false, false, false⟩

/-- Value of type `startup.AccessLogFn`: a function of the logging
collaborator, identified by the sink it writes to. A nil function is `none`
of `Option AccessLogFn`. -/
structure AccessLogFn where
  sink : String
  deriving DecidableEq, Repr

/-- The `context.Context` argument, reduced to what this package and its
collaborators read from it: the request-correlation id, the access-log
function associated with it, and the backend overrides attached by
`runtime.NewProxyContext` (one shaped like the query call, one like the exec
call). Go's nil context is the context with every field absent. -/
structure Context where
  requestId : Option String
  accessLog : Option AccessLogFn
  queryProxy : Option (Request → PgxRows × Option GoError)
  execProxy : Option (Request → CommandTag × Option GoError)

/-- The context that carries nothing. -/
def Context.background : Context := ⟨none, none, none, none⟩

/-- Modelled from the spec: `Status.SetRequestId(ctx)` of the `runtime`
package: the request-correlation id is copied from the context when
present. -/
def Status.SetRequestId (s : Status) (ctx : Context) : Status :=
  match ctx.requestId with
  | some id => { s with requestId := some id }
  | none => s

/-- Modelled from the spec: `log.AccessFromContext`, the access-log function
associated with the context, if any. -/
def AccessFromContext (ctx : Context) : Option AccessLogFn := ctx.accessLog

/-- Parsed URL `*url.URL`, the result of the standard library's `url.Parse`. -/
structure URL where
  text : String
  deriving DecidableEq, Repr

/-- Request descriptor `*http.Request`, as far as the log record shows it:
its fields `Method` and `URL`. -/
structure HttpRequest where
  Method : String
  URL : URL
  deriving DecidableEq, Repr

/-- The token characters of HTTP (`httpguts.IsTokenRune`): ASCII letters and
digits and the fifteen marks ! # $ % & ' * + - . ^ _ ` | ~, by code point. -/
def isTokenRune (c : Char) : Bool :=
  let n := c.toNat
  (48 ≤ n && n ≤ 57) || (65 ≤ n && n ≤ 90) || (97 ≤ n && n ≤ 122) ||
    n == 33 || n == 35 || n == 36 || n == 37 || n == 38 || n == 39 || n == 42 ||
    n == 43 || n == 45 || n == 46 || n == 94 || n == 95 || n == 96 || n == 124 || n == 126

/-- The standard library's `validMethod` of `net/http`: a method is a
non-empty string of token characters. -/
def validMethod (method : String) : Bool :=
  decide (0 < method.length) && method.toList.all isTokenRune

/-- The standard library's `http.NewRequest(method, url, nil)`, with its
error result dropped as the source drops it (`req, _ :=`): an empty method
stands for GET, and the request is nil (`none`) when the method is not valid
or the URL does not parse. The URL parser is a parameter. -/
def httpNewRequest (urlParse : String → Option URL) (method url : String) :
    Option HttpRequest :=
  let method := if method = "" then "GET" else method
  if validMethod method then
    match urlParse url with
    | some u => some ⟨method, u⟩
    | none => none
  else none

/-- Response descriptor `http.Response{StatusCode: ...}`. -/
structure HttpResponse where
  StatusCode : StatusCode
  deriving DecidableEq, Repr

/-- One access-log record: the seven positional arguments passed to an
`AccessLogFn`. The sixth is the integer placeholder, always written `-1` by
this package. -/
structure AccessRecord where
  traffic : String
  start : Nat
  duration : Nat
  req : Option HttpRequest
  resp : HttpResponse
  byteCount : Int
  statusFlags : String
  deriving DecidableEq, Repr

/-- Calls made to collaborators, in the order they are made. -/
inductive Event where
  | clientQuery (ctx : Context) (sql : String) (args : List AnyValue)
  | clientExec (ctx : Context) (sql : String) (args : List AnyValue)
  | accessLog (fn : AccessLogFn) (record : AccessRecord)

/-- The database client behind the package variable `dbClient`: the pgx
methods `Query(ctx, sql, args ...any)` and `Exec(ctx, sql, args ...any)`, each
taking the list of values of its variadic parameter and returning Go's pair of
a result and an error. -/
structure Client where
  Query : Context → String → List AnyValue → PgxRows × Option GoError
  Exec : Context → String → List AnyValue → CommandTag × Option GoError

/-- Process environment read by the controllers: the package variable
`dbClient` (nil is `none`), the clock behind `time.Now().UTC()` and
`time.Since`, and the standard library's URL parser `url.Parse` that
`http.NewRequest` runs on the uri (`none` when it reports an error). -/
structure Env where
  dbClient : Option Client
  timeNow : Nat
  timeSince : Nat → Nat
  urlParse : String → Option URL

/-- Go results `(value, status)` of an operation together with the calls it
made to its collaborators. -/
structure Outcome (α : Type) where
  value : α
  status : Status
  trace : List Event

/-! ## controller.go -/

/-- Constant `egressTraffic`. -/
def egressTraffic : String := "egress"

/-- Modelled from the spec: the constant `log.EgressTraffic` of the logging
package, the traffic direction "egress". -/
def logEgressTraffic : String := "egress"

/-- Modelled from the spec: the location constant `queryLoc` of this package,
declared in a file that is not among the sources. -/
def queryLoc : String := "query"

/-- Modelled from the spec: the location constant `execLoc` of this package,
declared in a file that is not among the sources. -/
def execLoc : String := "exec"

/-- Threshold: rate limiting and timeout. -/
structure Threshold where
  Limit : ℚ
  Burst : Int
  Timeout : Int
  deriving DecidableEq

/-- Configuration of the query controller. -/
structure controllerCfg where
  name : String
  threshold : Threshold
  logFn : Option AccessLogFn
  deriving DecidableEq

/-- Configuration of the exec controller (`type controllerCfgExec
controllerCfg`). -/
structure controllerCfgExec where
  name : String
  threshold : Threshold
  logFn : Option AccessLogFn
  deriving DecidableEq

/-- NewQueryController: create a new resiliency controller. -/
def NewQueryController (name : String) (threshold : Threshold)
    (logFn : Option AccessLogFn) : controllerCfg :=
  { name := name, threshold := threshold, logFn := logFn }

/-- NewExecController: create a new resiliency controller. -/
def NewExecController (name : String) (threshold : Threshold)
    (logFn : Option AccessLogFn) : controllerCfgExec :=
  { name := name, threshold := threshold, logFn := logFn }

/-- Function `applyQuery`. The call `dbClient.Query(ctx, r.Sql(), r.Args())`
hands the slice `r.Args()` to the variadic parameter without `...`, so the
client receives one value, the slice. -/
def applyQuery (env : Env) (ctx : Context) (r : Request) : Outcome PgxRows :=
  match env.dbClient with
  | none =>
    ⟨none,
     (NewStatusError StatusCode.InvalidArgument queryLoc
        (errorsNew "error on PostgreSQL database query call: dbClient is nil")).SetRequestId ctx,
     []⟩
  | some dbClient =>
    match dbClient.Query ctx r.Sql [AnyValue.slice r.Args] with
    | (_, some err) =>
      ⟨none, NewStatusError StatusCode.InvalidArgument queryLoc err,
       [Event.clientQuery ctx r.Sql [AnyValue.slice r.Args]]⟩
    | (rows, none) =>
      ⟨rows, NewStatusOK, [Event.clientQuery ctx r.Sql [AnyValue.slice r.Args]]⟩

/-- Function `applyExec`. As in `applyQuery`, `r.Args()` is handed to the
variadic parameter of `dbClient.Exec` without `...`. -/
def applyExec (env : Env) (ctx : Context) (r : Request) : Outcome CommandTag :=
  match env.dbClient with
  | none =>
    ⟨CommandTag.zero,
     (NewStatusError StatusCode.InvalidArgument execLoc
        (errorsNew "error on PostgreSQL database query call: dbClient is nil")).SetRequestId ctx,
     []⟩
  | some dbClient =>
    match dbClient.Exec ctx r.Sql [AnyValue.slice r.Args] with
    | (_, some err) =>
      ⟨CommandTag.zero, NewStatusError StatusCode.InvalidArgument execLoc err,
       [Event.clientExec ctx r.Sql [AnyValue.slice r.Args]]⟩
    | (cmd, none) =>
      ⟨cmd, NewStatusOK, [Event.clientExec ctx r.Sql [AnyValue.slice r.Args]]⟩

/-- Function `accessFn`. -/
def accessFn (ctx : Context) (logFn : Option AccessLogFn) : Option AccessLogFn :=
  match logFn with
  | some fn => some fn
  | none => AccessFromContext ctx

/-- Method `(*controllerCfg).Apply`. -/
def controllerCfg.Apply (c : controllerCfg) (env : Env) (ctx : Context) (r : Request) :
    Outcome PgxRows :=
  let start := env.timeNow
  let statusFlags := ""
  let out := applyQuery env ctx r
  match accessFn ctx c.logFn with
  | some fn =>
    let req := httpNewRequest env.urlParse r.Method r.Uri
    let resp : HttpResponse := ⟨out.status.Code⟩
    ⟨out.value, out.status,
     out.trace ++
       [Event.accessLog fn ⟨logEgressTraffic, start, env.timeSince start, req, resp, -1, statusFlags⟩]⟩
  | none => ⟨out.value, out.status, out.trace⟩

/-- Method `(*controllerCfgExec).Apply`. -/
def controllerCfgExec.Apply (c : controllerCfgExec) (env : Env) (ctx : Context) (r : Request) :
    Outcome CommandTag :=
  let start := env.timeNow
  let statusFlags := ""
  let out := applyExec env ctx r
  match accessFn ctx c.logFn with
  | some fn =>
    let req := httpNewRequest env.urlParse r.Method r.Uri
    let resp : HttpResponse := ⟨out.status.Code⟩
    ⟨out.value, out.status,
     out.trace ++
       [Event.accessLog fn ⟨egressTraffic, start, env.timeSince start, req, resp, -1, statusFlags⟩]⟩
  | none => ⟨out.value, out.status, out.trace⟩

/-! ## z_package.go -/

/-- Zero value of the package variable `started` (an `int64`). -/
def started : Int := 0

/-- IsStarted: returns status of startup. The atomic load returns the flag and
leaves the variable as it is; the second component is the variable after the
call. -/
def IsStarted (started : Int) : Bool × Int := (started != 0, started)

/-- Function `setStarted`: stores 1. -/
def setStarted (_started : Int) : Int := 1

/-- Function `resetStarted`: stores 0. -/
def resetStarted (_started : Int) : Int := 0

/-! ## Observations on traces and call sequences -/

/-- The calls of a trace that reach the database client. -/
def clientCalls (trace : List Event) : List Event :=
  trace.filter fun e =>
    match e with
    | Event.clientQuery _ _ _ => true
    | Event.clientExec _ _ _ => true
    | Event.accessLog _ _ => false

/-- The access-log calls of a trace: which function got which record. -/
def logCalls : List Event → List (AccessLogFn × AccessRecord)
  | [] => []
  | Event.accessLog fn record :: rest => (fn, record) :: logCalls rest
  | _ :: rest => logCalls rest

/-- One call on the lifecycle flag. -/
inductive LifecycleCall where
  | setStarted
  | resetStarted
  | IsStarted
  deriving DecidableEq, Repr

/-- The variable `started` after one call. -/
def LifecycleCall.run (s : Int) : LifecycleCall → Int
  | LifecycleCall.setStarted => Pgxsql.setStarted s
  | LifecycleCall.resetStarted => Pgxsql.resetStarted s
  | LifecycleCall.IsStarted => (Pgxsql.IsStarted s).2

/-- The variable `started` after a sequence of calls, first call first. -/
def runCalls (s : Int) (calls : List LifecycleCall) : Int :=
  calls.foldl LifecycleCall.run s

/-- The argument lists the database client received, call by call. -/
def clientArgs : List Event → List (List AnyValue)
  | [] => []
  | Event.clientQuery _ _ args :: rest => args :: clientArgs rest
  | Event.clientExec _ _ args :: rest => args :: clientArgs rest
  | _ :: rest => clientArgs rest

/-- Whether a call writes the flag. -/
def LifecycleCall.isWrite : LifecycleCall → Bool
  | LifecycleCall.IsStarted => false
  | _ => true

/-! ## Fixtures: concrete clients, contexts and requests -/

/-- A query request like the ones of the tests. -/
def fixtureQueryRequest : Request :=
  ⟨"select", "rows", "select * from table", [], "urn:postgresql:query.rows"⟩

/-- An insert request like the ones of the tests. -/
def fixtureInsertRequest : Request :=
  ⟨"insert", "insert", "insert test", [SqlValue.text "plano"], "urn:postgresql:insert.insert"⟩

/-- A non-zero command tag. -/
def fixtureTag : CommandTag := ⟨"INSERT 1", 1234, true, false, false, false⟩

/-- A client whose calls succeed: one row for a query, `fixtureTag` for an
exec. -/
def fixtureClientOk : Client :=
  { Query := fun _ _ _ => (some ⟨[[SqlValue.int 1]]⟩, none),
    Exec := fun _ _ _ => (fixtureTag, none) }

/-- A client whose calls fail with a driver error (and, as the connection
pool does, hand back a non-nil result next to the error). -/
def fixtureClientErr : Client :=
  { Query := fun _ _ _ => (some ⟨[]⟩, some ⟨"pgxsql query error"⟩),
    Exec := fun _ _ _ => (fixtureTag, some ⟨"exec error"⟩) }

/-- An environment around a client handle. -/
def fixtureEnv (dbClient : Option Client) : Env :=
  { dbClient := dbClient, timeNow := 100, timeSince := fun t => 107 - t,
    urlParse := fun u => some ⟨u⟩ }

/-- A context that carries a request id, an access-log function and both
overrides, each of which succeeds. -/
def fixtureCtx : Context :=
  { requestId := some "req-1", accessLog := some ⟨"ctx-log"⟩,
    queryProxy := some fun _ => (some ⟨[[SqlValue.int 7]]⟩, none),
    execProxy := some fun _ => (fixtureTag, none) }

/-- A request whose method is the empty string (the zero value). -/
def fixtureEmptyMethodRequest : Request :=
  ⟨"", "rows", "select * from table", [], "urn:postgresql:query.rows"⟩

/-- A request whose method contains a blank, which is no token character. -/
def fixtureBadMethodRequest : Request :=
  ⟨"sel ect", "rows", "select * from table", [], "urn:postgresql:query.rows"⟩

/-- A controller of each kind, configured without a log function. -/
def fixtureQueryCtl : controllerCfg := NewQueryController "query" ⟨100, 10, 2000⟩ none

/-- The exec-side counterpart of `fixtureQueryCtl`. -/
def fixtureExecCtl : controllerCfgExec := NewExecController "exec" ⟨100, 10, 2000⟩ none

/-- The record the query controller hands to a log function. -/
def queryRecord (env : Env) (r : Request) (st : Status) : AccessRecord :=
  ⟨logEgressTraffic, env.timeNow, env.timeSince env.timeNow,
   httpNewRequest env.urlParse r.Method r.Uri, ⟨st.Code⟩, -1, ""⟩

/-- The record the exec controller hands to a log function. -/
def execRecord (env : Env) (r : Request) (st : Status) : AccessRecord :=
  ⟨egressTraffic, env.timeNow, env.timeSince env.timeNow,
   httpNewRequest env.urlParse r.Method r.Uri, ⟨st.Code⟩, -1, ""⟩

/-! ## Shape of the two call paths -/

theorem applyQuery_nil (env : Env) (ctx : Context) (r : Request) (h : env.dbClient = none) :
    applyQuery env ctx r =
      ⟨none,
       (NewStatusError StatusCode.InvalidArgument queryLoc
          (errorsNew "error on PostgreSQL database query call: dbClient is nil")).SetRequestId ctx,
       []⟩ := by
  simp [applyQuery, h]

theorem applyQuery_err (env : Env) (ctx : Context) (r : Request) (db : Client)
    (x : PgxRows) (err : GoError) (h : env.dbClient = some db)
    (hq : db.Query ctx r.Sql [AnyValue.slice r.Args] = (x, some err)) :
    applyQuery env ctx r =
      ⟨none, NewStatusError StatusCode.InvalidArgument queryLoc err,
       [Event.clientQuery ctx r.Sql [AnyValue.slice r.Args]]⟩ := by
  simp [applyQuery, h, hq]

theorem applyQuery_ok (env : Env) (ctx : Context) (r : Request) (db : Client)
    (x : PgxRows) (h : env.dbClient = some db)
    (hq : db.Query ctx r.Sql [AnyValue.slice r.Args] = (x, none)) :
    applyQuery env ctx r = ⟨x, NewStatusOK, [Event.clientQuery ctx r.Sql [AnyValue.slice r.Args]]⟩ := by
  simp [applyQuery, h, hq]

theorem applyExec_nil (env : Env) (ctx : Context) (r : Request) (h : env.dbClient = none) :
    applyExec env ctx r =
      ⟨CommandTag.zero,
       (NewStatusError StatusCode.InvalidArgument execLoc
          (errorsNew "error on PostgreSQL database query call: dbClient is nil")).SetRequestId ctx,
       []⟩ := by
  simp [applyExec, h]

theorem applyExec_err (env : Env) (ctx : Context) (r : Request) (db : Client)
    (x : CommandTag) (err : GoError) (h : env.dbClient = some db)
    (hq : db.Exec ctx r.Sql [AnyValue.slice r.Args] = (x, some err)) :
    applyExec env ctx r =
      ⟨CommandTag.zero, NewStatusError StatusCode.InvalidArgument execLoc err,
       [Event.clientExec ctx r.Sql [AnyValue.slice r.Args]]⟩ := by
  simp [applyExec, h, hq]

theorem applyExec_ok (env : Env) (ctx : Context) (r : Request) (db : Client)
    (x : CommandTag) (h : env.dbClient = some db)
    (hq : db.Exec ctx r.Sql [AnyValue.slice r.Args] = (x, none)) :
    applyExec env ctx r = ⟨x, NewStatusOK, [Event.clientExec ctx r.Sql [AnyValue.slice r.Args]]⟩ := by
  simp [applyExec, h, hq]

theorem query_Apply_value (c : controllerCfg) (env : Env) (ctx : Context) (r : Request) :
    (c.Apply env ctx r).value = (applyQuery env ctx r).value := by
  unfold controllerCfg.Apply
  cases accessFn ctx c.logFn <;> rfl

theorem query_Apply_status (c : controllerCfg) (env : Env) (ctx : Context) (r : Request) :
    (c.Apply env ctx r).status = (applyQuery env ctx r).status := by
  unfold controllerCfg.Apply
  cases accessFn ctx c.logFn <;> rfl

theorem query_Apply_trace (c : controllerCfg) (env : Env) (ctx : Context) (r : Request) :
    (c.Apply env ctx r).trace =
      (applyQuery env ctx r).trace ++
        (match accessFn ctx c.logFn with
         | some fn => [Event.accessLog fn (queryRecord env r (applyQuery env ctx r).status)]
         | none => []) := by
  unfold controllerCfg.Apply
  cases accessFn ctx c.logFn <;> simp [queryRecord]

theorem exec_Apply_value (c : controllerCfgExec) (env : Env) (ctx : Context) (r : Request) :
    (c.Apply env ctx r).value = (applyExec env ctx r).value := by
  unfold controllerCfgExec.Apply
  cases accessFn ctx c.logFn <;> rfl

theorem exec_Apply_status (c : controllerCfgExec) (env : Env) (ctx : Context) (r : Request) :
    (c.Apply env ctx r).status = (applyExec env ctx r).status := by
  unfold controllerCfgExec.Apply
  cases accessFn ctx c.logFn <;> rfl

theorem exec_Apply_trace (c : controllerCfgExec) (env : Env) (ctx : Context) (r : Request) :
    (c.Apply env ctx r).trace =
      (applyExec env ctx r).trace ++
        (match accessFn ctx c.logFn with
         | some fn => [Event.accessLog fn (execRecord env r (applyExec env ctx r).status)]
         | none => []) := by
  unfold controllerCfgExec.Apply
  cases accessFn ctx c.logFn <;> simp [execRecord]

theorem clientCalls_append (a b : List Event) :
    clientCalls (a ++ b) = clientCalls a ++ clientCalls b := by
  simp [clientCalls]

theorem clientCalls_logTail (o : Option AccessLogFn) (f : AccessLogFn → AccessRecord) :
    clientCalls (match o with
      | some fn => [Event.accessLog fn (f fn)]
      | none => []) = [] := by
  cases o <;> simp [clientCalls]

theorem logCalls_append (a b : List Event) :
    logCalls (a ++ b) = logCalls a ++ logCalls b := by
  induction a with
  | nil => simp [logCalls]
  | cons e rest ih => cases e <;> simp [logCalls, ih]

theorem logCalls_applyQuery (env : Env) (ctx : Context) (r : Request) :
    logCalls (applyQuery env ctx r).trace = [] := by
  unfold applyQuery
  split
  · rfl
  · split <;> rfl

theorem logCalls_applyExec (env : Env) (ctx : Context) (r : Request) :
    logCalls (applyExec env ctx r).trace = [] := by
  unfold applyExec
  split
  · rfl
  · split <;> rfl

theorem SetRequestId_code (s : Status) (ctx : Context) : (s.SetRequestId ctx).code = s.code := by
  unfold Status.SetRequestId
  split <;> rfl

theorem SetRequestId_cause (s : Status) (ctx : Context) :
    (s.SetRequestId ctx).cause = s.cause := by
  unfold Status.SetRequestId
  split <;> rfl

theorem runCalls_snoc (s : Int) (calls : List LifecycleCall) (c : LifecycleCall) :
    runCalls s (calls ++ [c]) = LifecycleCall.run (runCalls s calls) c := by
  simp [runCalls, List.foldl_append]

theorem isStarted_runCalls (s : Int) (calls : List LifecycleCall) :
    (IsStarted (runCalls s calls)).1 =
      (match (calls.filter LifecycleCall.isWrite).getLast? with
       | some LifecycleCall.setStarted => true
       | some LifecycleCall.resetStarted => false
       | _ => (IsStarted s).1) := by
  induction calls using List.reverseRecOn with
  | nil => simp [runCalls]
  | append_singleton l c ih =>
    rw [runCalls_snoc]
    cases c with
    | setStarted =>
      simp [List.filter_append, LifecycleCall.isWrite, LifecycleCall.run, setStarted, IsStarted]
    | resetStarted =>
      simp [List.filter_append, LifecycleCall.isWrite, LifecycleCall.run, resetStarted, IsStarted]
    | IsStarted =>
      simpa [List.filter_append, LifecycleCall.isWrite, LifecycleCall.run, IsStarted] using ih

theorem validMethod_ne_empty (method : String) (h : validMethod method = true) :
    method ≠ "" := by
  intro hm
  subst hm
  simp [validMethod] at h

theorem httpNewRequest_valid (urlParse : String → Option URL) (method url : String) (u : URL)
    (hm : validMethod method = true) (hu : urlParse url = some u) :
    httpNewRequest urlParse method url = some ⟨method, u⟩ := by
  have hne : method ≠ "" := validMethod_ne_empty method hm
  simp [httpNewRequest, hne, hm, hu]

theorem httpNewRequest_invalid (urlParse : String → Option URL) (method url : String)
    (hne : method ≠ "") (hm : validMethod method = false) :
    httpNewRequest urlParse method url = none := by
  simp [httpNewRequest, hne, hm]

theorem httpNewRequest_unparsed (urlParse : String → Option URL) (method url : String)
    (hu : urlParse url = none) :
    httpNewRequest urlParse method url = none := by
  simp [httpNewRequest, hu]

theorem httpNewRequest_empty (urlParse : String → Option URL) (url : String) (u : URL)
    (hu : urlParse url = some u) :
    httpNewRequest urlParse "" url = some ⟨"GET", u⟩ := by
  have hget : validMethod "GET" = true := by decide
  simp [httpNewRequest, hget, hu]

/-! ## The claims -/

/-- C1: when the shared client handle `dbClient` is nil then, for every context
and request, the query controller's Apply returns the nil cursor and the exec
controller's Apply the zero-value command tag, each with a status whose code is
InvalidArgument and that carries a cause, and no call reaches the database
client. -/
theorem nil_client_invalid_argument (env : Env) (q : controllerCfg) (e : controllerCfgExec)
    (ctx : Context) (r : Request) (h : env.dbClient = none) :
    ((q.Apply env ctx r).value = none ∧
      (q.Apply env ctx r).status.code = StatusCode.InvalidArgument ∧
      (q.Apply env ctx r).status.cause.isSome = true ∧
      clientCalls (q.Apply env ctx r).trace = []) ∧
    ((e.Apply env ctx r).value = CommandTag.zero ∧
      (e.Apply env ctx r).status.code = StatusCode.InvalidArgument ∧
      (e.Apply env ctx r).status.cause.isSome = true ∧
      clientCalls (e.Apply env ctx r).trace = []) := by
  refine ⟨⟨?_, ?_, ?_, ?_⟩, ⟨?_, ?_, ?_, ?_⟩⟩
  · rw [query_Apply_value, applyQuery_nil env ctx r h]
  · rw [query_Apply_status, applyQuery_nil env ctx r h]
    simp [SetRequestId_code, NewStatusError]
  · rw [query_Apply_status, applyQuery_nil env ctx r h]
    simp [SetRequestId_cause, NewStatusError]
  · rw [query_Apply_trace, applyQuery_nil env ctx r h, clientCalls_append, clientCalls_logTail]
    rfl
  · rw [exec_Apply_value, applyExec_nil env ctx r h]
  · rw [exec_Apply_status, applyExec_nil env ctx r h]
    simp [SetRequestId_code, NewStatusError]
  · rw [exec_Apply_status, applyExec_nil env ctx r h]
    simp [SetRequestId_cause, NewStatusError]
  · rw [exec_Apply_trace, applyExec_nil env ctx r h, clientCalls_append, clientCalls_logTail]
    rfl

/-- C1, witness: the nil-client theorem at a concrete input: a context that carries a log
function and overrides, and the two fixture controllers. -/
theorem nil_client_invalid_argument_witness :
    (fixtureEnv none).dbClient = none ∧
    (((fixtureQueryCtl.Apply (fixtureEnv none) fixtureCtx fixtureQueryRequest).value = none ∧
      (fixtureQueryCtl.Apply (fixtureEnv none) fixtureCtx fixtureQueryRequest).status.code =
        StatusCode.InvalidArgument ∧
      (fixtureQueryCtl.Apply (fixtureEnv none) fixtureCtx
        fixtureQueryRequest).status.cause.isSome = true ∧
      clientCalls (fixtureQueryCtl.Apply (fixtureEnv none) fixtureCtx
        fixtureQueryRequest).trace = []) ∧
    ((fixtureExecCtl.Apply (fixtureEnv none) fixtureCtx fixtureQueryRequest).value =
        CommandTag.zero ∧
      (fixtureExecCtl.Apply (fixtureEnv none) fixtureCtx fixtureQueryRequest).status.code =
        StatusCode.InvalidArgument ∧
      (fixtureExecCtl.Apply (fixtureEnv none) fixtureCtx
        fixtureQueryRequest).status.cause.isSome = true ∧
      clientCalls (fixtureExecCtl.Apply (fixtureEnv none) fixtureCtx
        fixtureQueryRequest).trace = [])) :=
  ⟨rfl, nil_client_invalid_argument (fixtureEnv none) fixtureQueryCtl fixtureExecCtl fixtureCtx
    fixtureQueryRequest rfl⟩

/-- C3, counterexample: the claim fails as stated. Over the succeeding fixture
client Apply returns the client's result with the status OK, but the argument
list the client receives is not the request's arguments: it is one value, the
slice of them, for a request with one argument and for a request with none. -/
theorem client_argument_list_counterexample :
    (fixtureExecCtl.Apply (fixtureEnv (some fixtureClientOk)) fixtureCtx
        fixtureInsertRequest).status.code = StatusCode.OK ∧
    fixtureInsertRequest.Args = [SqlValue.text "plano"] ∧
    clientArgs (fixtureExecCtl.Apply (fixtureEnv (some fixtureClientOk)) fixtureCtx
        fixtureInsertRequest).trace = [[AnyValue.slice [SqlValue.text "plano"]]] ∧
    clientArgs (fixtureExecCtl.Apply (fixtureEnv (some fixtureClientOk)) fixtureCtx
        fixtureInsertRequest).trace ≠ [fixtureInsertRequest.Args.map AnyValue.value] ∧
    fixtureQueryRequest.Args = [] ∧
    clientArgs (fixtureQueryCtl.Apply (fixtureEnv (some fixtureClientOk)) fixtureCtx
        fixtureQueryRequest).trace = [[AnyValue.slice []]] ∧
    clientArgs (fixtureQueryCtl.Apply (fixtureEnv (some fixtureClientOk)) fixtureCtx
        fixtureQueryRequest).trace ≠ [fixtureQueryRequest.Args.map AnyValue.value] :=
  ⟨rfl, rfl, rfl, by decide, rfl, rfl, by decide⟩

/-- C3, amended: when the client handle is present then, whatever the context,
the request, the clock and the configured log function, a controller whose
client call succeeds with result `x` (a cursor for query, a command tag for
exec) calls the client exactly once, handing it the request's SQL text and,
as the single value of the variadic parameter, the slice of the request's
arguments, and returns exactly `x` with the status OK. The query side needs
only the query call to succeed, the exec side only the exec call. -/
theorem apply_success_returns_client_result (env : Env) (db : Client) (q : controllerCfg)
    (e : controllerCfgExec) (ctx : Context) (r : Request) (h : env.dbClient = some db) :
    ((∀ x, db.Query ctx r.Sql [AnyValue.slice r.Args] = (x, none) →
      (q.Apply env ctx r).value = x ∧
      (q.Apply env ctx r).status = NewStatusOK ∧
      (q.Apply env ctx r).status.code = StatusCode.OK ∧
      clientCalls (q.Apply env ctx r).trace =
        [Event.clientQuery ctx r.Sql [AnyValue.slice r.Args]]) ∧
    (∀ y, db.Exec ctx r.Sql [AnyValue.slice r.Args] = (y, none) →
      (e.Apply env ctx r).value = y ∧
      (e.Apply env ctx r).status = NewStatusOK ∧
      (e.Apply env ctx r).status.code = StatusCode.OK ∧
      clientCalls (e.Apply env ctx r).trace =
        [Event.clientExec ctx r.Sql [AnyValue.slice r.Args]])) := by
  constructor
  · intro x hq
    refine ⟨?_, ?_, ?_, ?_⟩
    · rw [query_Apply_value, applyQuery_ok env ctx r db x h hq]
    · rw [query_Apply_status, applyQuery_ok env ctx r db x h hq]
    · rw [query_Apply_status, applyQuery_ok env ctx r db x h hq]
      rfl
    · rw [query_Apply_trace, applyQuery_ok env ctx r db x h hq, clientCalls_append,
        clientCalls_logTail]
      rfl
  · intro y he
    refine ⟨?_, ?_, ?_, ?_⟩
    · rw [exec_Apply_value, applyExec_ok env ctx r db y h he]
    · rw [exec_Apply_status, applyExec_ok env ctx r db y h he]
    · rw [exec_Apply_status, applyExec_ok env ctx r db y h he]
      rfl
    · rw [exec_Apply_trace, applyExec_ok env ctx r db y h he, clientCalls_append,
        clientCalls_logTail]
      rfl

/-- C3, witness: the amended theorem at a concrete input, the succeeding
fixture client, controllers with a log function of their own and a context
that carries another; both inner premises hold there. -/
theorem apply_success_returns_client_result_witness :
    (fixtureEnv (some fixtureClientOk)).dbClient = some fixtureClientOk ∧
    fixtureClientOk.Query fixtureCtx fixtureInsertRequest.Sql
      [AnyValue.slice fixtureInsertRequest.Args] = (some ⟨[[SqlValue.int 1]]⟩, none) ∧
    fixtureClientOk.Exec fixtureCtx fixtureInsertRequest.Sql
      [AnyValue.slice fixtureInsertRequest.Args] = (fixtureTag, none) ∧
    ((∀ x, fixtureClientOk.Query fixtureCtx fixtureInsertRequest.Sql [AnyValue.slice fixtureInsertRequest.Args] = (x, none) →
      ((NewQueryController "q" ⟨0, 0, 0⟩ (some ⟨"own-log"⟩)).Apply (fixtureEnv (some fixtureClientOk)) fixtureCtx fixtureInsertRequest).value = x ∧
      ((NewQueryController "q" ⟨0, 0, 0⟩ (some ⟨"own-log"⟩)).Apply (fixtureEnv (some fixtureClientOk)) fixtureCtx fixtureInsertRequest).status = NewStatusOK ∧
      ((NewQueryController "q" ⟨0, 0, 0⟩ (some ⟨"own-log"⟩)).Apply (fixtureEnv (some fixtureClientOk)) fixtureCtx fixtureInsertRequest).status.code = StatusCode.OK ∧
      clientCalls ((NewQueryController "q" ⟨0, 0, 0⟩ (some ⟨"own-log"⟩)).Apply (fixtureEnv (some fixtureClientOk)) fixtureCtx fixtureInsertRequest).trace =
        [Event.clientQuery fixtureCtx fixtureInsertRequest.Sql [AnyValue.slice fixtureInsertRequest.Args]]) ∧
    (∀ y, fixtureClientOk.Exec fixtureCtx fixtureInsertRequest.Sql [AnyValue.slice fixtureInsertRequest.Args] = (y, none) →
      ((NewExecController "e" ⟨0, 0, 0⟩ (some ⟨"own-log"⟩)).Apply (fixtureEnv (some fixtureClientOk)) fixtureCtx fixtureInsertRequest).value = y ∧
      ((NewExecController "e" ⟨0, 0, 0⟩ (some ⟨"own-log"⟩)).Apply (fixtureEnv (some fixtureClientOk)) fixtureCtx fixtureInsertRequest).status = NewStatusOK ∧
      ((NewExecController "e" ⟨0, 0, 0⟩ (some ⟨"own-log"⟩)).Apply (fixtureEnv (some fixtureClientOk)) fixtureCtx fixtureInsertRequest).status.code = StatusCode.OK ∧
      clientCalls ((NewExecController "e" ⟨0, 0, 0⟩ (some ⟨"own-log"⟩)).Apply (fixtureEnv (some fixtureClientOk)) fixtureCtx fixtureInsertRequest).trace =
        [Event.clientExec fixtureCtx fixtureInsertRequest.Sql [AnyValue.slice fixtureInsertRequest.Args]])) :=
  ⟨rfl, rfl, rfl,
    apply_success_returns_client_result (fixtureEnv (some fixtureClientOk)) fixtureClientOk
      (NewQueryController "q" ⟨0, 0, 0⟩ (some ⟨"own-log"⟩))
      (NewExecController "e" ⟨0, 0, 0⟩ (some ⟨"own-log"⟩)) fixtureCtx fixtureInsertRequest rfl⟩

/-- C10: the lifecycle flag is a two-state machine. IsStarted is false on the
zero value of `started`; after any finite sequence of calls IsStarted returns
true exactly when the last setStarted/resetStarted call of the sequence was
setStarted (calls of IsStarted in between change nothing); setStarted and
resetStarted are idempotent and IsStarted leaves the flag as it was. -/
theorem lifecycle_flag_two_state (calls : List LifecycleCall) (s : Int) :
    (IsStarted started).1 = false ∧
    ((IsStarted (runCalls started calls)).1 = true ↔
      (calls.filter LifecycleCall.isWrite).getLast? = some LifecycleCall.setStarted) ∧
    setStarted (setStarted s) = setStarted s ∧
    resetStarted (resetStarted s) = resetStarted s ∧
    (IsStarted s).2 = s ∧
    (IsStarted (setStarted s)).1 = true ∧
    (IsStarted (resetStarted s)).1 = false := by
  refine ⟨by decide, ?_, rfl, rfl, rfl, by simp [IsStarted, setStarted],
    by simp [IsStarted, resetStarted]⟩
  rw [isStarted_runCalls]
  cases hlast : (calls.filter LifecycleCall.isWrite).getLast? with
  | none => simp [IsStarted, started]
  | some c =>
    cases c with
    | setStarted => simp
    | resetStarted => simp
    | IsStarted =>
      have hmem : LifecycleCall.IsStarted ∈ calls.filter LifecycleCall.isWrite :=
        List.mem_of_getLast?_eq_some hlast
      simp [List.mem_filter, LifecycleCall.isWrite] at hmem

/-- C7: for every controller and context, Apply hands its access-log record to
exactly one function: the one supplied at construction when there is one (also
when the context has one of its own), otherwise the one associated with the
context; when there is neither, no log function is called. In every case Apply
returns the result and status of the operation. -/
theorem access_log_function_choice (q : controllerCfg) (e : controllerCfgExec) (env : Env)
    (ctx : Context) (r : Request) :
    ((logCalls (q.Apply env ctx r).trace).map Prod.fst =
        (match q.logFn, ctx.accessLog with
         | some f, _ => [f]
         | none, some g => [g]
         | none, none => []) ∧
      (q.Apply env ctx r).value = (applyQuery env ctx r).value ∧
      (q.Apply env ctx r).status = (applyQuery env ctx r).status) ∧
    ((logCalls (e.Apply env ctx r).trace).map Prod.fst =
        (match e.logFn, ctx.accessLog with
         | some f, _ => [f]
         | none, some g => [g]
         | none, none => []) ∧
      (e.Apply env ctx r).value = (applyExec env ctx r).value ∧
      (e.Apply env ctx r).status = (applyExec env ctx r).status) := by
  refine ⟨⟨?_, query_Apply_value q env ctx r, query_Apply_status q env ctx r⟩,
    ⟨?_, exec_Apply_value e env ctx r, exec_Apply_status e env ctx r⟩⟩
  · rw [query_Apply_trace, logCalls_append, logCalls_applyQuery]
    cases hq : q.logFn with
    | some f => simp [accessFn, logCalls]
    | none =>
      cases hc : ctx.accessLog with
      | some g => simp [accessFn, AccessFromContext, hc, logCalls]
      | none => simp [accessFn, AccessFromContext, hc, logCalls]
  · rw [exec_Apply_trace, logCalls_append, logCalls_applyExec]
    cases hq : e.logFn with
    | some f => simp [accessFn, logCalls]
    | none =>
      cases hc : ctx.accessLog with
      | some g => simp [accessFn, AccessFromContext, hc, logCalls]
      | none => simp [accessFn, AccessFromContext, hc, logCalls]

/-- C8, counterexample: the claim fails as stated. For a request whose method
is the empty string the one record's request descriptor has the method GET,
and for a request whose method is "sel ect" the record has no request
descriptor at all (a nil request), on the query side and on the exec side. -/
theorem request_descriptor_counterexample :
    fixtureEmptyMethodRequest.Method = "" ∧
    (logCalls (fixtureQueryCtl.Apply (fixtureEnv (some fixtureClientOk)) fixtureCtx
        fixtureEmptyMethodRequest).trace).map (fun p => p.2.req) =
      [some ⟨"GET", ⟨"urn:postgresql:query.rows"⟩⟩] ∧
    fixtureBadMethodRequest.Method = "sel ect" ∧
    (logCalls (fixtureQueryCtl.Apply (fixtureEnv (some fixtureClientOk)) fixtureCtx
        fixtureBadMethodRequest).trace).map (fun p => p.2.req) = [none] ∧
    (logCalls (fixtureExecCtl.Apply (fixtureEnv (some fixtureClientOk)) fixtureCtx
        fixtureBadMethodRequest).trace).map (fun p => p.2.req) = [none] := by
  decide

/-- C8, amended: for every request, whenever a log function is resolved, the
query-side and the exec-side Apply each emit exactly one record, after the
calls of the backend path, to that function; its traffic direction is
"egress", its response descriptor holds the code of the status Apply returns,
its integer placeholder is -1 and its flags are the empty string, on the
success, driver-error and nil-client paths alike (nothing is assumed about the
client). Its request descriptor is what `http.NewRequest` returns for the
request's method and uri: it has the request's method and the parsed uri when
the method is a non-empty string of token characters and the uri parses; it
has the method GET when the request's method is empty; and it is nil when the
method is non-empty but no token, or the uri does not parse. -/
theorem access_log_record_shape (q : controllerCfg) (e : controllerCfgExec) (env : Env)
    (ctx : Context) (r : Request) (fq fe : AccessLogFn)
    (hq : accessFn ctx q.logFn = some fq) (he : accessFn ctx e.logFn = some fe) :
    (∃ record : AccessRecord,
      (q.Apply env ctx r).trace =
        (applyQuery env ctx r).trace ++ [Event.accessLog fq record] ∧
      logCalls (q.Apply env ctx r).trace = [(fq, record)] ∧
      record.traffic = "egress" ∧
      record.req = httpNewRequest env.urlParse r.Method r.Uri ∧
      (∀ u, validMethod r.Method = true → env.urlParse r.Uri = some u →
        record.req = some ⟨r.Method, u⟩) ∧
      (∀ u, r.Method = "" → env.urlParse r.Uri = some u →
        record.req = some ⟨"GET", u⟩) ∧
      (r.Method ≠ "" → validMethod r.Method = false → record.req = none) ∧
      (env.urlParse r.Uri = none → record.req = none) ∧
      record.resp.StatusCode = (q.Apply env ctx r).status.code ∧
      record.byteCount = -1 ∧
      record.statusFlags = "") ∧
    (∃ record : AccessRecord,
      (e.Apply env ctx r).trace =
        (applyExec env ctx r).trace ++ [Event.accessLog fe record] ∧
      logCalls (e.Apply env ctx r).trace = [(fe, record)] ∧
      record.traffic = "egress" ∧
      record.req = httpNewRequest env.urlParse r.Method r.Uri ∧
      (∀ u, validMethod r.Method = true → env.urlParse r.Uri = some u →
        record.req = some ⟨r.Method, u⟩) ∧
      (∀ u, r.Method = "" → env.urlParse r.Uri = some u →
        record.req = some ⟨"GET", u⟩) ∧
      (r.Method ≠ "" → validMethod r.Method = false → record.req = none) ∧
      (env.urlParse r.Uri = none → record.req = none) ∧
      record.resp.StatusCode = (e.Apply env ctx r).status.code ∧
      record.byteCount = -1 ∧
      record.statusFlags = "") := by
  constructor
  · refine ⟨queryRecord env r (applyQuery env ctx r).status, ?_, ?_, rfl, rfl, ?_, ?_, ?_, ?_, ?_,
      rfl, rfl⟩
    · rw [query_Apply_trace, hq]
    · rw [query_Apply_trace, hq, logCalls_append, logCalls_applyQuery]
      rfl
    · intro u hm hu
      exact httpNewRequest_valid env.urlParse r.Method r.Uri u hm hu
    · intro u hm hu
      show httpNewRequest env.urlParse r.Method r.Uri = _
      rw [hm]
      exact httpNewRequest_empty env.urlParse r.Uri u hu
    · intro hne hm
      exact httpNewRequest_invalid env.urlParse r.Method r.Uri hne hm
    · intro hu
      exact httpNewRequest_unparsed env.urlParse r.Method r.Uri hu
    · rw [query_Apply_status]
      rfl
  · refine ⟨execRecord env r (applyExec env ctx r).status, ?_, ?_, rfl, rfl, ?_, ?_, ?_, ?_, ?_,
      rfl, rfl⟩
    · rw [exec_Apply_trace, he]
    · rw [exec_Apply_trace, he, logCalls_append, logCalls_applyExec]
      rfl
    · intro u hm hu
      exact httpNewRequest_valid env.urlParse r.Method r.Uri u hm hu
    · intro u hm hu
      show httpNewRequest env.urlParse r.Method r.Uri = _
      rw [hm]
      exact httpNewRequest_empty env.urlParse r.Uri u hu
    · intro hne hm
      exact httpNewRequest_invalid env.urlParse r.Method r.Uri hne hm
    · intro hu
      exact httpNewRequest_unparsed env.urlParse r.Method r.Uri hu
    · rw [exec_Apply_status]
      rfl

/-- C8, witness: the amended theorem at a concrete input, the failing fixture
client, the fixture controllers (no log function of their own), a context that
carries one and a request whose method "select" is a token and whose uri
parses. -/
theorem access_log_record_shape_witness :
    accessFn fixtureCtx fixtureQueryCtl.logFn = some ⟨"ctx-log"⟩ ∧
    accessFn fixtureCtx fixtureExecCtl.logFn = some ⟨"ctx-log"⟩ ∧
    validMethod fixtureQueryRequest.Method = true ∧
    (fixtureEnv (some fixtureClientErr)).urlParse fixtureQueryRequest.Uri =
      some ⟨"urn:postgresql:query.rows"⟩ ∧
    (∃ record : AccessRecord,
      (fixtureQueryCtl.Apply (fixtureEnv (some fixtureClientErr)) fixtureCtx fixtureQueryRequest).trace =
        (applyQuery (fixtureEnv (some fixtureClientErr)) fixtureCtx fixtureQueryRequest).trace ++ [Event.accessLog (⟨"ctx-log"⟩ : AccessLogFn) record] ∧
      logCalls (fixtureQueryCtl.Apply (fixtureEnv (some fixtureClientErr)) fixtureCtx fixtureQueryRequest).trace = [((⟨"ctx-log"⟩ : AccessLogFn), record)] ∧
      record.traffic = "egress" ∧
      record.req = httpNewRequest (fixtureEnv (some fixtureClientErr)).urlParse fixtureQueryRequest.Method fixtureQueryRequest.Uri ∧
      (∀ u, validMethod fixtureQueryRequest.Method = true → (fixtureEnv (some fixtureClientErr)).urlParse fixtureQueryRequest.Uri = some u →
        record.req = some ⟨fixtureQueryRequest.Method, u⟩) ∧
      (∀ u, fixtureQueryRequest.Method = "" → (fixtureEnv (some fixtureClientErr)).urlParse fixtureQueryRequest.Uri = some u →
        record.req = some ⟨"GET", u⟩) ∧
      (fixtureQueryRequest.Method ≠ "" → validMethod fixtureQueryRequest.Method = false → record.req = none) ∧
      ((fixtureEnv (some fixtureClientErr)).urlParse fixtureQueryRequest.Uri = none → record.req = none) ∧
      record.resp.StatusCode = (fixtureQueryCtl.Apply (fixtureEnv (some fixtureClientErr)) fixtureCtx fixtureQueryRequest).status.code ∧
      record.byteCount = -1 ∧
      record.statusFlags = "") ∧
    (∃ record : AccessRecord,
      (fixtureExecCtl.Apply (fixtureEnv (some fixtureClientErr)) fixtureCtx fixtureQueryRequest).trace =
        (applyExec (fixtureEnv (some fixtureClientErr)) fixtureCtx fixtureQueryRequest).trace ++ [Event.accessLog (⟨"ctx-log"⟩ : AccessLogFn) record] ∧
      logCalls (fixtureExecCtl.Apply (fixtureEnv (some fixtureClientErr)) fixtureCtx fixtureQueryRequest).trace = [((⟨"ctx-log"⟩ : AccessLogFn), record)] ∧
      record.traffic = "egress" ∧
      record.req = httpNewRequest (fixtureEnv (some fixtureClientErr)).urlParse fixtureQueryRequest.Method fixtureQueryRequest.Uri ∧
      (∀ u, validMethod fixtureQueryRequest.Method = true → (fixtureEnv (some fixtureClientErr)).urlParse fixtureQueryRequest.Uri = some u →
        record.req = some ⟨fixtureQueryRequest.Method, u⟩) ∧
      (∀ u, fixtureQueryRequest.Method = "" → (fixtureEnv (some fixtureClientErr)).urlParse fixtureQueryRequest.Uri = some u →
        record.req = some ⟨"GET", u⟩) ∧
      (fixtureQueryRequest.Method ≠ "" → validMethod fixtureQueryRequest.Method = false → record.req = none) ∧
      ((fixtureEnv (some fixtureClientErr)).urlParse fixtureQueryRequest.Uri = none → record.req = none) ∧
      record.resp.StatusCode = (fixtureExecCtl.Apply (fixtureEnv (some fixtureClientErr)) fixtureCtx fixtureQueryRequest).status.code ∧
      record.byteCount = -1 ∧
      record.statusFlags = "") :=
  ⟨rfl, rfl, by decide, rfl,
    access_log_record_shape fixtureQueryCtl fixtureExecCtl (fixtureEnv (some fixtureClientErr))
      fixtureCtx fixtureQueryRequest ⟨"ctx-log"⟩ ⟨"ctx-log"⟩ rfl rfl⟩

/-- C9: for every context, request and client state, the status produced by
`applyQuery` and by `applyExec` has code OK if and only if it carries no
cause; it is OK exactly when the client is present and its call returned no
error; and every status that is not OK carries a cause and comes with the
zero-value result (nil cursor, zero command tag). -/
theorem status_ok_iff_no_cause (env : Env) (ctx : Context) (r : Request) :
    (((applyQuery env ctx r).status.code = StatusCode.OK ↔
        (applyQuery env ctx r).status.cause = none) ∧
      ((applyQuery env ctx r).status.code = StatusCode.OK ↔
        ∃ db, env.dbClient = some db ∧ (db.Query ctx r.Sql [AnyValue.slice r.Args]).2 = none) ∧
      ((applyQuery env ctx r).status.code ≠ StatusCode.OK →
        (applyQuery env ctx r).status.cause.isSome = true ∧
          (applyQuery env ctx r).value = none)) ∧
    (((applyExec env ctx r).status.code = StatusCode.OK ↔
        (applyExec env ctx r).status.cause = none) ∧
      ((applyExec env ctx r).status.code = StatusCode.OK ↔
        ∃ db, env.dbClient = some db ∧ (db.Exec ctx r.Sql [AnyValue.slice r.Args]).2 = none) ∧
      ((applyExec env ctx r).status.code ≠ StatusCode.OK →
        (applyExec env ctx r).status.cause.isSome = true ∧
          (applyExec env ctx r).value = CommandTag.zero)) := by
  constructor
  · cases h : env.dbClient with
    | none =>
      rw [applyQuery_nil env ctx r h]
      simp [SetRequestId_code, SetRequestId_cause, NewStatusError]
    | some db =>
      rcases hres : db.Query ctx r.Sql [AnyValue.slice r.Args] with ⟨x, err⟩
      cases err with
      | none =>
        rw [applyQuery_ok env ctx r db x h hres]
        simp [NewStatusOK, hres]
      | some err =>
        rw [applyQuery_err env ctx r db x err h hres]
        simp [NewStatusError, hres]
  · cases h : env.dbClient with
    | none =>
      rw [applyExec_nil env ctx r h]
      simp [SetRequestId_code, SetRequestId_cause, NewStatusError]
    | some db =>
      rcases hres : db.Exec ctx r.Sql [AnyValue.slice r.Args] with ⟨x, err⟩
      cases err with
      | none =>
        rw [applyExec_ok env ctx r db x h hres]
        simp [NewStatusOK, hres]
      | some err =>
        rw [applyExec_err env ctx r db x err h hres]
        simp [NewStatusError, hres]

/-- C2: the code at the failing input, a present client whose call returns a
driver error. Both paths, and Apply on top of them, return the zero-value
result and a status whose cause is that error, but the code of the status is
InvalidArgument, not Internal. -/
theorem driver_error_code_observed :
    ((applyQuery (fixtureEnv (some fixtureClientErr)) Context.background
          fixtureQueryRequest).value = none ∧
      (applyQuery (fixtureEnv (some fixtureClientErr)) Context.background
          fixtureQueryRequest).status.cause = some ⟨"pgxsql query error"⟩ ∧
      (applyQuery (fixtureEnv (some fixtureClientErr)) Context.background
          fixtureQueryRequest).status.code = StatusCode.InvalidArgument ∧
      (fixtureQueryCtl.Apply (fixtureEnv (some fixtureClientErr)) Context.background
          fixtureQueryRequest).status.code ≠ StatusCode.Internal) ∧
    ((applyExec (fixtureEnv (some fixtureClientErr)) Context.background
          fixtureInsertRequest).value = CommandTag.zero ∧
      (applyExec (fixtureEnv (some fixtureClientErr)) Context.background
          fixtureInsertRequest).status.cause = some ⟨"exec error"⟩ ∧
      (applyExec (fixtureEnv (some fixtureClientErr)) Context.background
          fixtureInsertRequest).status.code = StatusCode.InvalidArgument ∧
      (fixtureExecCtl.Apply (fixtureEnv (some fixtureClientErr)) Context.background
          fixtureInsertRequest).status.code ≠ StatusCode.Internal) :=
  ⟨⟨rfl, rfl, rfl, by decide⟩, ⟨rfl, rfl, rfl, by decide⟩⟩

/-- C6: the code at the failing input, a context that carries the request id
"req-1" and a present client whose call returns a driver error. The status
that wraps the driver error is not OK and carries no request id, on the query
path and on the exec path, while the nil-client status of the same context
carries "req-1". -/
theorem driver_error_request_id_observed :
    fixtureCtx.requestId = some "req-1" ∧
    ((applyQuery (fixtureEnv (some fixtureClientErr)) fixtureCtx
          fixtureQueryRequest).status.code ≠ StatusCode.OK ∧
      (applyQuery (fixtureEnv (some fixtureClientErr)) fixtureCtx
          fixtureQueryRequest).status.requestId = none ∧
      (applyQuery (fixtureEnv none) fixtureCtx fixtureQueryRequest).status.requestId =
        some "req-1") ∧
    ((applyExec (fixtureEnv (some fixtureClientErr)) fixtureCtx
          fixtureInsertRequest).status.code ≠ StatusCode.OK ∧
      (applyExec (fixtureEnv (some fixtureClientErr)) fixtureCtx
          fixtureInsertRequest).status.requestId = none ∧
      (applyExec (fixtureEnv none) fixtureCtx fixtureInsertRequest).status.requestId =
        some "req-1") :=
  ⟨rfl, ⟨by decide, rfl, rfl⟩, ⟨by decide, rfl, rfl⟩⟩

/-- C4: the code at the failing input. The context `fixtureCtx` carries
overrides that answer with a one-row cursor and with `fixtureTag`, without
error. With a nil client handle Apply returns the nil cursor and the zero
command tag with the status InvalidArgument, not the overrides' answers with
OK; with a client present the call goes to the client, whose error decides
the status. -/
theorem override_bypassed_observed :
    (fixtureCtx.queryProxy.map fun f => f fixtureQueryRequest) =
        some (some ⟨[[SqlValue.int 7]]⟩, none) ∧
    (fixtureCtx.execProxy.map fun f => f fixtureInsertRequest) = some (fixtureTag, none) ∧
    (fixtureQueryCtl.Apply (fixtureEnv none) fixtureCtx fixtureQueryRequest).value = none ∧
    (fixtureQueryCtl.Apply (fixtureEnv none) fixtureCtx fixtureQueryRequest).status.code =
      StatusCode.InvalidArgument ∧
    (fixtureExecCtl.Apply (fixtureEnv none) fixtureCtx fixtureInsertRequest).value ≠
      fixtureTag ∧
    (fixtureExecCtl.Apply (fixtureEnv none) fixtureCtx fixtureInsertRequest).status.code =
      StatusCode.InvalidArgument ∧
    (clientCalls (fixtureExecCtl.Apply (fixtureEnv (some fixtureClientErr)) fixtureCtx
      fixtureInsertRequest).trace).length = 1 ∧
    (fixtureExecCtl.Apply (fixtureEnv (some fixtureClientErr)) fixtureCtx
      fixtureInsertRequest).status.code ≠ StatusCode.OK :=
  ⟨rfl, rfl, rfl, rfl, by decide, rfl, rfl, by decide⟩

/-- C5, counterexample: the claim fails as stated; a query controller and an exec controller constructed
with Threshold{Limit: 0, Burst: 0}, over a client whose calls succeed, return
the status OK from Apply and call the client once. -/
theorem zero_threshold_counterexample :
    ((NewQueryController "q" ⟨0, 0, 0⟩ none).Apply (fixtureEnv (some fixtureClientOk))
        Context.background fixtureQueryRequest).status.code = StatusCode.OK ∧
    (clientCalls ((NewQueryController "q" ⟨0, 0, 0⟩ none).Apply
        (fixtureEnv (some fixtureClientOk)) Context.background
        fixtureQueryRequest).trace).length = 1 ∧
    ((NewExecController "e" ⟨0, 0, 0⟩ none).Apply (fixtureEnv (some fixtureClientOk))
        Context.background fixtureInsertRequest).status.code = StatusCode.OK ∧
    (clientCalls ((NewExecController "e" ⟨0, 0, 0⟩ none).Apply
        (fixtureEnv (some fixtureClientOk)) Context.background
        fixtureInsertRequest).trace).length = 1 :=
  ⟨rfl, rfl, rfl, rfl⟩

/-- C5, amended: a controller constructed with Threshold{Limit: 0, Burst: 0}
returns from Apply exactly what a controller constructed with any other
threshold returns, for every context and request: the threshold is not
consulted, the status is never ResourceExhausted, and whenever the client
handle is present the backend is called exactly once. -/
theorem threshold_not_consulted (name : String) (timeout : Int) (threshold : Threshold)
    (logFn : Option AccessLogFn) (env : Env) (ctx : Context) (r : Request) :
    ((NewQueryController name ⟨0, 0, timeout⟩ logFn).Apply env ctx r =
        (NewQueryController name threshold logFn).Apply env ctx r ∧
      ((NewQueryController name ⟨0, 0, timeout⟩ logFn).Apply env ctx r).status.code ≠
        StatusCode.ResourceExhausted ∧
      (∀ db, env.dbClient = some db →
        clientCalls ((NewQueryController name ⟨0, 0, timeout⟩ logFn).Apply env ctx r).trace =
          [Event.clientQuery ctx r.Sql [AnyValue.slice r.Args]])) ∧
    ((NewExecController name ⟨0, 0, timeout⟩ logFn).Apply env ctx r =
        (NewExecController name threshold logFn).Apply env ctx r ∧
      ((NewExecController name ⟨0, 0, timeout⟩ logFn).Apply env ctx r).status.code ≠
        StatusCode.ResourceExhausted ∧
      (∀ db, env.dbClient = some db →
        clientCalls ((NewExecController name ⟨0, 0, timeout⟩ logFn).Apply env ctx r).trace =
          [Event.clientExec ctx r.Sql [AnyValue.slice r.Args]])) := by
  refine ⟨⟨rfl, ?_, ?_⟩, ⟨rfl, ?_, ?_⟩⟩
  · rw [query_Apply_status]
    cases h : env.dbClient with
    | none =>
      rw [applyQuery_nil env ctx r h]
      simp [SetRequestId_code, NewStatusError]
    | some db =>
      rcases hres : db.Query ctx r.Sql [AnyValue.slice r.Args] with ⟨x, err⟩
      cases err with
      | none => rw [applyQuery_ok env ctx r db x h hres]; simp [NewStatusOK]
      | some err => rw [applyQuery_err env ctx r db x err h hres]; simp [NewStatusError]
  · intro db h
    rcases hres : db.Query ctx r.Sql [AnyValue.slice r.Args] with ⟨x, err⟩
    cases err with
    | none =>
      rw [query_Apply_trace, applyQuery_ok env ctx r db x h hres, clientCalls_append,
        clientCalls_logTail]
      rfl
    | some err =>
      rw [query_Apply_trace, applyQuery_err env ctx r db x err h hres, clientCalls_append,
        clientCalls_logTail]
      rfl
  · rw [exec_Apply_status]
    cases h : env.dbClient with
    | none =>
      rw [applyExec_nil env ctx r h]
      simp [SetRequestId_code, NewStatusError]
    | some db =>
      rcases hres : db.Exec ctx r.Sql [AnyValue.slice r.Args] with ⟨y, err⟩
      cases err with
      | none => rw [applyExec_ok env ctx r db y h hres]; simp [NewStatusOK]
      | some err => rw [applyExec_err env ctx r db y err h hres]; simp [NewStatusError]
  · intro db h
    rcases hres : db.Exec ctx r.Sql [AnyValue.slice r.Args] with ⟨y, err⟩
    cases err with
    | none =>
      rw [exec_Apply_trace, applyExec_ok env ctx r db y h hres, clientCalls_append,
        clientCalls_logTail]
      rfl
    | some err =>
      rw [exec_Apply_trace, applyExec_err env ctx r db y err h hres, clientCalls_append,
        clientCalls_logTail]
      rfl

end Pgxsql
